import Mathlib

/-!
Verification development for the Medical-Report-Analyzer pipeline.

The repository's core is shallowly embedded here:
* `extract_text_and_images` models `PDFParserAgent.extract_text_and_images`
  (src/agents/parser_agent.py),
* `analyze_report` models `AnalyzerAgent.analyze_report`
  (src/agents/analyzer_agent.py),
* `call_gemini_text` / `call_gemini_vision` model the completion-service
  wrappers (src/utils/helpers.py).

Modelling conventions:
* Python strings are modelled as `List Char`; `bytes` payloads as `List Nat`.
* Fallible external calls (the Gemini API, PyMuPDF image resolution, PIL
  re-encoding) are modelled as `Option`-valued oracles: `none` covers both
  a raised exception and a missing result, matching the source's blanket
  `try/except` + falsiness handling.
* The UI calls (`st.write`, `st.info`, …) are pure feedback and are dropped;
  `st.warning` occurrences inside the parser's per-image loop are counted so
  that "a warning was recorded" is checkable.
* The two orchestrator functions are instrumented with a trace of the
  completion-service invocations they perform (mode, prompt, images,
  response), so that claims about *which* service calls happen are statable.
-/

set_option autoImplicit false

namespace MedReport

/-- Python `str` is modelled as a list of characters. -/
abbrev PyStr := List Char

/-- Python `bytes` (raw image payloads) is modelled as a list of byte values. -/
abbrev PyBytes := List Nat

/-- Python truthiness test `not x` applied to an `Optional[str]`:
`None` and the empty string are falsy, every other string is truthy. -/
def falsy : Option PyStr → Bool
  | none => true
  | some s => s.isEmpty

/-- One entry of the parser's `images_data` list: the dict
`{"page_num": ..., "image_bytes": ..., "index_on_page": ...}`
built in `parser_agent.py` lines 88-92. -/
structure ImageRec where
  page_num : Nat
  image_bytes : PyBytes
  index_on_page : Nat
deriving DecidableEq

/-- The dict returned by `PDFParserAgent.extract_text_and_images`
(lines 106-110) and consumed by `AnalyzerAgent.analyze_report`. -/
structure ExtractedDocument where
  full_text : PyStr
  images : List ImageRec
  pages_text : List PyStr
deriving DecidableEq

/-- One page of an opened PDF, as the parser observes it through PyMuPDF:
`text` is what `page.get_text("text")` returns, and `images` records, for
each image reference of `page.get_images(full=True)` in discovery order,
the outcome of `doc.extract_image(xref)`: `none` when the call raises
(caught at lines 97-98), `some b` when it returns payload bytes `b`
(possibly empty, which line 86 treats as invalid). -/
structure PageData where
  text : PyStr
  images : List (Option PyBytes)
deriving DecidableEq

/-- The filesystem- and format-level view of the `pdf_path` argument:
`present` models `os.path.exists`, `size` models `os.path.getsize`, and
`parse` is the outcome of `fitz.open` + page loading — `none` when the
reader raises (FitzError / IOError / generic, lines 114-125), `some pages`
when the document opens and its pages load. -/
structure PdfFile where
  present : Bool
  size : Nat
  parse : Option (List PageData)

/-- The decimal digit character for `k < 10`, as produced by Python's
`str(int)` formatting. -/
def digitChar (k : Nat) : Char := Char.ofNat (48 + k)

/-- Fuel-indexed decimal rendering of a natural number (auxiliary). -/
def natCharsAux : Nat → Nat → PyStr
  | 0, _ => []
  | fuel + 1, n =>
    if n < 10 then [digitChar n]
    else natCharsAux fuel (n / 10) ++ [digitChar (n % 10)]

/-- Decimal rendering of a natural number, modelling Python's `f"{k}"`. -/
def natChars (n : Nat) : PyStr := natCharsAux (n + 1) n

/-- The page-boundary segment `f"\n--- Page {n} ---\n"` prepended to every
page's text in the accumulator (parser_agent.py line 73). -/
def pageMarker (n : Nat) : PyStr :=
  '\n' :: (("--- Page ").toList ++ natChars n ++ (" ---\n").toList)

/-- The inner image loop of `extract_text_and_images` (lines 81-98) for one
page: walks the page's image references with their `enumerate` index,
keeps records for the references that resolve to non-empty payload bytes,
and counts one `st.warning` for every reference that raises or yields no
valid image data.  Returns (kept records, warning count). -/
def processImages (page_num : Nat) (idx : Nat) :
    List (Option PyBytes) → List ImageRec × Nat
  | [] => ([], 0)
  | none :: rest =>
    let pr := processImages page_num (idx + 1) rest
    (pr.1, pr.2 + 1)
  | some b :: rest =>
    let pr := processImages page_num (idx + 1) rest
    if b.isEmpty then (pr.1, pr.2 + 1) else (⟨page_num, b, idx⟩ :: pr.1, pr.2)

/-- The page loop of `extract_text_and_images` (lines 66-98), with `n` the
1-based number of the first page to process: accumulates the marked-up full
text, the per-page text list, the image records and the warning count. -/
def processPages (n : Nat) : List PageData → PyStr × List PyStr × List ImageRec × Nat
  | [] => ([], [], [], 0)
  | p :: rest =>
    let pr := processImages n 0 p.images
    let rec4 := processPages (n + 1) rest
    (pageMarker n ++ p.text ++ ['\n'] ++ rec4.1,
     p.text :: rec4.2.1,
     pr.1 ++ rec4.2.2.1,
     pr.2 + rec4.2.2.2)

/-- Python's `str.isspace` characters relevant to `str.strip()`. -/
def pyIsSpace (c : Char) : Bool :=
  c == ' ' || c == '\t' || c == '\n' || c == '\r' || c == '\x0b' || c == '\x0c'

/-- Python's `str.strip()`: drop leading and trailing whitespace. -/
def pyStrip (s : PyStr) : PyStr :=
  (s.dropWhile pyIsSpace).rdropWhile pyIsSpace

/-- Model of `PDFParserAgent.extract_text_and_images` (parser_agent.py
lines 30-125).  Returns the extraction outcome (`none` exactly on the
document-level failure paths: missing file, empty file, reader error)
paired with the number of per-image warnings recorded on the way. -/
def extract_text_and_images (f : PdfFile) : Option ExtractedDocument × Nat :=
  if f.present = false then (none, 0)
  else if f.size = 0 then (none, 0)
  else
    match f.parse with
    | none => (none, 0)
    | some pages =>
      let r := processPages 1 pages
      (some ⟨pyStrip r.1, r.2.2.1, r.2.1⟩, r.2.2.2)

/-! ### The analyzer (src/agents/analyzer_agent.py) -/

/-- Which completion-service entry point a call went through. -/
inductive CallMode
  | text
  | vision
deriving DecidableEq

/-- One recorded completion-service invocation: the mode, the prompt, the
image payloads passed along (empty for text mode), and the response the
service produced (`none` models an exception or missing content). -/
structure CallEvent where
  mode : CallMode
  prompt : PyStr
  images : List PyBytes
  response : Option PyStr
deriving DecidableEq

/-- The `analysis_result` dict built by `analyze_report`: the
`initial_extraction` key is present only when Pass 1 succeeded, the
`final_analysis` key only when Pass 2 succeeded. -/
structure AnalysisResult where
  initial_extraction : Option PyStr
  final_analysis : Option PyStr
deriving DecidableEq

/-- Text of the Pass-1 extraction prompt before the `{full_text}` splice
(analyzer_agent.py lines 43-54). -/
def extraction_prompt_prefix : PyStr :=
  ("\n        Analyze the following medical report text extracted from a PDF.\n        Identify key sections (e.g., Blood Report, Lipid Profile, Liver Function, Imaging Findings).\n        For each numerical test result found (like blood counts, cholesterol levels, enzyme levels, etc.), extract:\n        - Test Name\n        - Value\n        - Unit (if available)\n        - Reference Range (if available in the text)\n        Summarize any textual findings, especially from imaging sections if present in the text.\n\n        Extracted Text:\n        ---\n        ").toList

/-- Text of the Pass-1 extraction prompt after the `{full_text}` splice
(analyzer_agent.py lines 56-59). -/
def extraction_prompt_suffix : PyStr :=
  ("\n        ---\n\n        Output the findings in a structured manner (e.g., using Markdown lists or sections).\n        ").toList

/-- The Pass-1 prompt `extraction_prompt` (analyzer_agent.py lines 43-59),
an f-string embedding the document's raw full text. -/
def extraction_prompt (full_text : PyStr) : PyStr :=
  extraction_prompt_prefix ++ full_text ++ extraction_prompt_suffix

/-- The Pass-2 prompt template `synthesis_prompt` (analyzer_agent.py lines
64-85); a constant string containing the placeholder token. -/
def synthesis_prompt : PyStr :=
  ("\n        You are an AI assistant analyzing medical report data.\n        Based *only* on the information provided below (extracted text summary and any associated images), perform the following:\n\n        1.  **Summarize Key Findings:** Briefly list the most significant results (both numerical and textual/visual). Mention if values are outside typical reference ranges if that information is available or commonly known (state typical ranges if possible).\n        2.  **Explain Significance:** For key abnormal findings, explain what they *might* indicate in simple terms.\n        3.  **Potential Conditions (General):** Based on the *combination* of findings, list *potential* conditions or areas of concern that *might* be associated with these results. Use cautious language (e.g., \"could suggest,\" \"may indicate,\" \"warrants further investigation\").\n        4.  **General Recommendations & Next Steps:** Suggest general, non-specific lifestyle advice (like diet, hydration, exercise) that might be relevant *if applicable and safe*. More importantly, strongly recommend discussing these results in detail with a qualified healthcare professional for accurate diagnosis and treatment planning. Mention specific results they should discuss.\n\n        **IMPORTANT:**\n        * **DO NOT PROVIDE A DIAGNOSIS.** You are not a doctor.\n        * **DO NOT PROVIDE MEDICAL ADVICE.** All recommendations must be general and emphasize consultation with a doctor.\n        * Clearly state that this analysis is based solely on the provided data and may be incomplete or require clinical context.\n        * If the report seems incomplete or unclear, state that.\n\n        Use the following extracted information and images (if any) for your analysis.\n\n        **Extracted Text Summary/Details:**\n        [PLACEHOLDER_FOR_INITIAL_ANALYSIS_OR_FULL_TEXT]\n\n        **[If Images Exist]:** Analyze the provided images in conjunction with the text. Describe any visual findings.\n        ").toList

/-- The placeholder token replaced at analyzer_agent.py line 107. -/
def placeholder_token : PyStr :=
  ("[PLACEHOLDER_FOR_INITIAL_ANALYSIS_OR_FULL_TEXT]").toList

/-- The fallback string assigned to `initial_analysis` at line 97 on Pass-1
failure; the source never uses its value afterwards (the Pass-2 basis is
overwritten with the raw full text). -/
def fallback_message : PyStr :=
  ("Could not pre-process text. Using raw text for synthesis.").toList

/-- Python's `str.replace`: replace every occurrence of `pat` (left to
right, non-overlapping) by `repl`.  The empty-pattern case cannot arise in
the source (the pattern is the placeholder token); it is mapped to the
identity. -/
def replaceAll (pat repl : PyStr) : PyStr → PyStr
  | [] => []
  | c :: rest =>
    if h : pat ≠ [] ∧ pat.isPrefixOf (c :: rest) = true then
      repl ++ replaceAll pat repl ((c :: rest).drop pat.length)
    else
      c :: replaceAll pat repl rest
termination_by l => l.length
decreasing_by
  · simp only [List.length_drop, List.length_cons]
    cases pat with
    | nil => exact absurd rfl h.1
    | cons a t => simp only [List.length_cons]; omega
  · simp only [List.length_cons]; omega

/-- Model of `AnalyzerAgent.analyze_report` (analyzer_agent.py lines
13-127), parameterised over the two completion-service entry points it
calls (`call_gemini_text` and `call_gemini_vision` from utils/helpers.py).
Returns the result (`None` on refusal or Pass-2 failure) paired with the
trace of completion-service invocations performed. -/
def analyze_report (call_text : PyStr → Option PyStr)
    (call_vision : PyStr → List PyBytes → Option PyStr) :
    Option ExtractedDocument → Option AnalysisResult × List CallEvent
  | none => (none, [])
  | some d =>
    let full_text := d.full_text
    let images := d.images
    let image_bytes_list := images.map ImageRec.image_bytes
    if full_text.isEmpty && images.isEmpty then (none, [])
    else
      let ep := extraction_prompt full_text
      let initial_analysis := call_text ep
      let e1 : CallEvent := ⟨CallMode.text, ep, [], initial_analysis⟩
      let text_for_synthesis :=
        if falsy initial_analysis then full_text else initial_analysis.getD []
      let recorded_initial : Option PyStr :=
        if falsy initial_analysis then none else initial_analysis
      let final_prompt := replaceAll placeholder_token text_for_synthesis synthesis_prompt
      let final_analysis :=
        if image_bytes_list.isEmpty then call_text final_prompt
        else call_vision final_prompt image_bytes_list
      let e2 : CallEvent :=
        if image_bytes_list.isEmpty then ⟨CallMode.text, final_prompt, [], final_analysis⟩
        else ⟨CallMode.vision, final_prompt, image_bytes_list, final_analysis⟩
      if falsy final_analysis then (none, [e1, e2])
      else (some ⟨recorded_initial, final_analysis⟩, [e1, e2])

/-- The image payloads the analyzer collects at analyzer_agent.py line 30:
`[img['image_bytes'] for img in images]`. -/
def image_payloads (d : ExtractedDocument) : List PyBytes :=
  d.images.map ImageRec.image_bytes

/-- The textual basis handed to Pass 2 (`text_for_synthesis`): the Pass-1
response when it is truthy, the raw full text otherwise (lines 94-102). -/
def pass2_basis (t : PyStr → Option PyStr) (d : ExtractedDocument) : PyStr :=
  if falsy (t (extraction_prompt d.full_text)) then d.full_text
  else (t (extraction_prompt d.full_text)).getD []

/-- The `initial_extraction` entry of the result dict: present exactly when
Pass 1 returned truthy content (line 101). -/
def pass1_record (t : PyStr → Option PyStr) (d : ExtractedDocument) : Option PyStr :=
  if falsy (t (extraction_prompt d.full_text)) then none
  else t (extraction_prompt d.full_text)

/-- The `final_prompt` of Pass 2 (line 107): the synthesis template with
the placeholder token replaced by the Pass-2 basis. -/
def final_prompt_of (t : PyStr → Option PyStr) (d : ExtractedDocument) : PyStr :=
  replaceAll placeholder_token (pass2_basis t d) synthesis_prompt

/-- Which service entry point Pass 2 goes through (lines 109-114). -/
def pass2_mode_of (d : ExtractedDocument) : CallMode :=
  if (image_payloads d).isEmpty then CallMode.text else CallMode.vision

/-- The Pass-2 response (lines 109-114). -/
def pass2_response (t : PyStr → Option PyStr) (v : PyStr → List PyBytes → Option PyStr)
    (d : ExtractedDocument) : Option PyStr :=
  if (image_payloads d).isEmpty then t (final_prompt_of t d)
  else v (final_prompt_of t d) (image_payloads d)

/-! ### A scanner for page-boundary markers

The spec asserts that `fullText` "contains exactly N page-boundary markers
(a separator line followed by `Page <N>`), appearing in increasing page
order".  `markerNums` makes that checkable: it scans a string left to
right and returns, in order, the page number of every occurrence of the
marker pattern `--- Page <digits> ---`. -/

/-- The head of the marker pattern: `--- Page ` (the leading newline of the
separator is stripped from the first marker by `str.strip`, so the scanner
keys on the newline-free core of the pattern). -/
def pagePat : PyStr := ("--- Page ").toList

/-- The tail of the marker pattern after the digits: ` ---`. -/
def markTail : PyStr := (" ---").toList

/-- Decimal value of a digit string. -/
def digitsToNat (ds : PyStr) : Nat :=
  ds.foldl (fun a c => 10 * a + (c.toNat - 48)) 0

/-- Does a marker occurrence start at the head of `s`?  If so, return the
page number it names. -/
def matchAt (s : PyStr) : Option Nat :=
  if pagePat.isPrefixOf s then
    if ((s.drop pagePat.length).takeWhile Char.isDigit).isEmpty then none
    else if markTail.isPrefixOf ((s.drop pagePat.length).dropWhile Char.isDigit) then
      some (digitsToNat ((s.drop pagePat.length).takeWhile Char.isDigit))
    else none
  else none

/-- All marker occurrences in a string, in textual order. -/
def markerNums : PyStr → List Nat
  | [] => []
  | c :: rest =>
    match matchAt (c :: rest) with
    | some n => n :: markerNums rest
    | none => markerNums rest

/-- The (pageNum, indexOnPage) lexicographic order on extracted images. -/
def imgOrder (a b : ImageRec) : Prop :=
  a.page_num < b.page_num ∨ (a.page_num = b.page_num ∧ a.index_on_page < b.index_on_page)

/-- Spec-side view of one image reference's resolution outcome: `some b`
when the reference resolves to valid (non-empty) payload bytes `b`, `none`
when resolution raises or yields no valid data. -/
def goodBytes : Option PyBytes → Option PyBytes
  | some b => if b.isEmpty then none else some b
  | none => none

/-- The successfully-resolvable payloads of one page, in discovery order. -/
def pageGoodPayloads (p : PageData) : List PyBytes :=
  p.images.filterMap goodBytes

/-- Number of successfully-resolvable image references in a document. -/
def totalGood (pages : List PageData) : Nat :=
  (pages.map (fun p => (pageGoodPayloads p).length)).sum

/-- Number of failing image references (those that raise or yield no valid
data) in a document; each produces one recorded warning. -/
def totalBad (pages : List PageData) : Nat :=
  (pages.map (fun p => p.images.countP (fun o => (goodBytes o).isNone))).sum

/-! ### Stub services and sample data used by the concrete witnesses -/

/-- Deterministic stub text service that always succeeds. -/
def stubTextOk : PyStr → Option PyStr := fun _ => some (("summary").toList)

/-- Stub text service that always fails (returns no content). -/
def stubTextFail : PyStr → Option PyStr := fun _ => none

/-- Deterministic stub vision service that always succeeds. -/
def stubVisionOk : PyStr → List PyBytes → Option PyStr := fun _ _ => some (("analysis").toList)

/-- Stub vision service that always fails. -/
def stubVisionFail : PyStr → List PyBytes → Option PyStr := fun _ _ => none

/-- A sample extracted document with text and one image. -/
def sampleDoc : ExtractedDocument := ⟨("x").toList, [⟨1, [0], 0⟩], [("x").toList]⟩

/-- A sample extracted document with text and no images. -/
def sampleDocNoImages : ExtractedDocument := ⟨("x").toList, [], [("x").toList]⟩

/-- The degenerate document with no text and no images. -/
def emptyDoc : ExtractedDocument := ⟨[], [], []⟩

/-- A zero-page but existing, non-empty PDF file. -/
def zeroPageFile : PdfFile := ⟨true, 5, some []⟩

/-- A one-page file with three image references, of which the second one
fails to resolve. -/
def sampleFile : PdfFile := ⟨true, 5, some [⟨("hi").toList, [some [1], none, some [2]]⟩]⟩

/-- The document `sampleFile` extracts to. -/
def sampleFileDoc : ExtractedDocument :=
  ⟨("--- Page 1 ---\nhi").toList, [⟨1, [1], 0⟩, ⟨1, [2], 2⟩], [("hi").toList]⟩

/-- A one-page file whose page text itself spells a page-boundary marker. -/
def markerPageFile : PdfFile := ⟨true, 1, some [⟨("--- Page 1 ---").toList, []⟩]⟩

/-- A two-page file with marker-free page texts. -/
def cleanFile : PdfFile :=
  ⟨true, 5, some [⟨("hi").toList, []⟩, ⟨("yo").toList, []⟩]⟩

/-- The document `cleanFile` extracts to. -/
def cleanFileDoc : ExtractedDocument :=
  ⟨("--- Page 1 ---\nhi\n\n--- Page 2 ---\nyo").toList, [],
    [("hi").toList, ("yo").toList]⟩

/-! ### The completion-service wrappers (src/utils/helpers.py) -/

/-- The external Gemini transport as the helpers see it: a text endpoint
and a multimodal endpoint, each of which may fail (`none` models the
exceptions caught at helpers.py lines 28-30 and 73-75). -/
structure GeminiApi where
  generate_text : PyStr → Option PyStr
  generate_vision : PyStr → List PyBytes → Option PyStr

/-- Model of `call_gemini_text` (helpers.py lines 21-30): forwards the
prompt to the text endpoint; a raised exception becomes `none`. -/
def call_gemini_text (api : GeminiApi) (prompt : PyStr) : Option PyStr :=
  api.generate_text prompt

/-- Model of `call_gemini_vision` (helpers.py lines 32-75).
`process_image` models the PIL open/convert/re-encode-to-JPEG step for one
payload (lines 44-63); `none` means the per-image exception path, and such
images are skipped.  An empty input list, or a list whose every image fails
re-encoding, falls back to the text endpoint. -/
def call_gemini_vision (api : GeminiApi) (process_image : PyBytes → Option PyBytes)
    (prompt : PyStr) (image_bytes_list : List PyBytes) : Option PyStr :=
  if image_bytes_list.isEmpty then call_gemini_text api prompt
  else
    let image_parts := image_bytes_list.filterMap process_image
    if image_parts.isEmpty then call_gemini_text api prompt
    else api.generate_vision prompt image_parts

/-! ## Helper lemmas -/

/-- A non-falsy optional string holds content. -/
theorem isSome_of_falsy_eq_false {o : Option PyStr} (h : falsy o = false) :
    o.isSome = true := by
  cases o with
  | none => simp [falsy] at h
  | some s => rfl

/-- Characterisation of `analyze_report` on a document that passes the
nothing-to-analyze precondition: Pass 1 is invoked on the extraction
prompt, Pass 2 on the placeholder-substituted synthesis prompt, and the
result is `none` exactly when the Pass-2 response is falsy. -/
theorem analyze_report_eq (t : PyStr → Option PyStr)
    (v : PyStr → List PyBytes → Option PyStr) (d : ExtractedDocument)
    (hpre : (d.full_text.isEmpty && d.images.isEmpty) = false) :
    analyze_report t v (some d) =
      (if falsy (pass2_response t v d) then none
       else some ⟨pass1_record t d, pass2_response t v d⟩,
       [⟨CallMode.text, extraction_prompt d.full_text, [], t (extraction_prompt d.full_text)⟩,
        ⟨pass2_mode_of d, final_prompt_of t d, image_payloads d, pass2_response t v d⟩]) := by
  simp only [analyze_report, hpre, Bool.false_eq_true, if_false,
    pass2_response, pass2_mode_of, final_prompt_of, pass2_basis, pass1_record, image_payloads]
  split_ifs with h1 h2 h3 h4 h5 h6 h7 <;>
    simp_all [List.isEmpty_iff, List.map_eq_nil_iff]

/-- Every image record kept by the per-page loop carries that page's number
and an on-page index at least the starting index. -/
theorem processImages_mem {n i : Nat} {l : List (Option PyBytes)} :
    ∀ r ∈ (processImages n i l).1, r.page_num = n ∧ i ≤ r.index_on_page := by
  induction l generalizing i with
  | nil => simp [processImages]
  | cons o rest ih =>
    intro r hr
    cases o with
    | some b =>
      simp only [processImages] at hr
      by_cases hb : b.isEmpty = true
      · rw [if_pos hb] at hr
        have := @ih (i + 1) r hr
        exact ⟨this.1, by omega⟩
      · rw [if_neg hb] at hr
        rcases List.mem_cons.mp hr with h | h
        · rw [h]; exact ⟨rfl, le_refl i⟩
        · have := @ih (i + 1) r h
          exact ⟨this.1, by omega⟩
    | none =>
      simp only [processImages] at hr
      have := @ih (i + 1) r hr
      exact ⟨this.1, by omega⟩

/-- The image records of one page have strictly increasing on-page indices. -/
theorem processImages_sorted {n i : Nat} {l : List (Option PyBytes)} :
    ((processImages n i l).1).Pairwise (fun a b => a.index_on_page < b.index_on_page) := by
  induction l generalizing i with
  | nil => simp [processImages]
  | cons o rest ih =>
    cases o with
    | some b =>
      simp only [processImages]
      by_cases hb : b.isEmpty = true
      · rw [if_pos hb]; exact ih
      · rw [if_neg hb]
        refine List.Pairwise.cons ?_ ih
        intro r hr
        have := processImages_mem r hr
        simp only
        omega
    | none => simpa only [processImages] using ih

/-- The payloads kept by the per-page loop are exactly the
successfully-resolvable ones, in discovery order. -/
theorem processImages_payloads {n i : Nat} {l : List (Option PyBytes)} :
    (processImages n i l).1.map ImageRec.image_bytes = l.filterMap goodBytes := by
  induction l generalizing i with
  | nil => simp [processImages]
  | cons o rest ih =>
    cases o with
    | some b =>
      simp only [processImages, List.filterMap_cons]
      by_cases hb : b.isEmpty = true
      · rw [if_pos hb]; simp [goodBytes, hb, ih]
      · rw [if_neg hb]; simp [goodBytes, hb, ih]
    | none => simp [processImages, List.filterMap_cons, goodBytes, ih]

/-- The per-page loop records one warning per failing image reference. -/
theorem processImages_warns {n i : Nat} {l : List (Option PyBytes)} :
    (processImages n i l).2 = l.countP (fun o => (goodBytes o).isNone) := by
  induction l generalizing i with
  | nil => simp [processImages]
  | cons o rest ih =>
    cases o with
    | some b =>
      simp only [processImages, List.countP_cons]
      by_cases hb : b.isEmpty = true
      · rw [if_pos hb]; simp [goodBytes, hb, ih]
      · rw [if_neg hb]; simp [goodBytes, hb, ih]
    | none => simp [processImages, List.countP_cons, goodBytes, ih]

/-- Every image record produced by the page loop starting at page `n`
comes from a page numbered at least `n`. -/
theorem processPages_mem {n : Nat} {ps : List PageData} :
    ∀ r ∈ (processPages n ps).2.2.1, n ≤ r.page_num := by
  induction ps generalizing n with
  | nil => simp [processPages]
  | cons p rest ih =>
    intro r hr
    simp only [processPages] at hr
    rcases List.mem_append.mp hr with h | h
    · exact (processImages_mem r h).1 ▸ le_refl n
    · exact Nat.le_of_succ_le (ih r h)

/-- The image records produced by the page loop are sorted by
(pageNum, indexOnPage). -/
theorem processPages_sorted {n : Nat} {ps : List PageData} :
    ((processPages n ps).2.2.1).Pairwise imgOrder := by
  induction ps generalizing n with
  | nil => simp [processPages]
  | cons p rest ih =>
    simp only [processPages]
    rw [List.pairwise_append]
    refine ⟨?_, ih, ?_⟩
    · refine List.Pairwise.imp_of_mem ?_ processImages_sorted
      intro a b ha hb hlt
      exact Or.inr ⟨(processImages_mem a ha).1.trans (processImages_mem b hb).1.symm, hlt⟩
    · intro a ha b hb
      exact Or.inl <| by
        have h1 := (processImages_mem a ha).1
        have h2 := processPages_mem b hb
        omega

/-- The payloads of the page loop are the flattened per-page
successfully-resolvable payloads. -/
theorem processPages_payloads {n : Nat} {ps : List PageData} :
    (processPages n ps).2.2.1.map ImageRec.image_bytes = (ps.map pageGoodPayloads).flatten := by
  induction ps generalizing n with
  | nil => simp [processPages]
  | cons p rest ih =>
    simp only [processPages, List.map_cons, List.flatten_cons, List.map_append]
    rw [processImages_payloads, ih]
    rfl

/-- The page loop records in total one warning per failing reference. -/
theorem processPages_warns {n : Nat} {ps : List PageData} :
    (processPages n ps).2.2.2 = totalBad ps := by
  induction ps generalizing n with
  | nil => simp [processPages, totalBad]
  | cons p rest ih =>
    simp only [processPages, totalBad, List.map_cons, List.sum_cons]
    rw [processImages_warns, ih]
    rfl

/-- Successful extraction yields an image list sorted by
(pageNum, indexOnPage). -/
theorem extract_images_sorted {f : PdfFile} {d : ExtractedDocument} {w : Nat}
    (h : extract_text_and_images f = (some d, w)) :
    d.images.Pairwise imgOrder := by
  unfold extract_text_and_images at h
  split_ifs at h with h1 h2
  · simp at h
  · simp at h
  · revert h
    cases f.parse with
    | none => intro h; simp at h
    | some pages =>
      intro h
      rw [Prod.mk.injEq, Option.some.injEq] at h
      rw [← h.1]
      exact processPages_sorted

/-- The refusal equation: a document with no text and no images is turned
away before any service call. -/
theorem analyze_report_refuse (t : PyStr → Option PyStr)
    (v : PyStr → List PyBytes → Option PyStr) (d : ExtractedDocument)
    (hpre : (d.full_text.isEmpty && d.images.isEmpty) = true) :
    analyze_report t v (some d) = (none, []) := by
  simp [analyze_report, hpre]

/-! ## Claim theorems -/

/-- C10: invoking `analyze_report` with a missing input (`None` instead of
an extracted-data dict) returns `None` without invoking the completion
service in either pass — the trace of service calls is empty. -/
theorem analyze_null_input (t : PyStr → Option PyStr)
    (v : PyStr → List PyBytes → Option PyStr) :
    analyze_report t v none = (none, []) := rfl

/-- C4: a document whose full text is empty and whose image list is empty
is refused immediately: `analyze_report` returns `None` and performs no
completion-service call in either pass. -/
theorem analyze_empty_document_refusal (t : PyStr → Option PyStr)
    (v : PyStr → List PyBytes → Option PyStr) (d : ExtractedDocument)
    (h1 : d.full_text = []) (h2 : d.images = []) :
    analyze_report t v (some d) = (none, []) := by
  simp [analyze_report, h1, h2]

/-- Witness for C4 at the concrete empty document. -/
theorem analyze_empty_document_refusal_witness :
    emptyDoc.full_text = [] ∧ emptyDoc.images = [] ∧
    analyze_report stubTextOk stubVisionOk (some emptyDoc) = (none, []) :=
  ⟨rfl, rfl, analyze_empty_document_refusal stubTextOk stubVisionOk emptyDoc rfl rfl⟩

/-- C8: `call_gemini_vision` invoked with an empty image list returns
exactly the result of `call_gemini_text` on the same prompt. -/
theorem vision_empty_images_eq_text (api : GeminiApi)
    (process_image : PyBytes → Option PyBytes) (prompt : PyStr) :
    call_gemini_vision api process_image prompt [] = call_gemini_text api prompt := rfl

/-- C7: an existing, non-empty file whose document parses with zero pages
extracts successfully to a document with empty full text, empty per-page
list and no images (and no warnings), rather than failing. -/
theorem extract_zero_pages (f : PdfFile) (h1 : f.present = true) (h2 : f.size ≠ 0)
    (h3 : f.parse = some []) :
    extract_text_and_images f = (some ⟨[], [], []⟩, 0) := by
  simp [extract_text_and_images, h1, h2, h3, processPages, pyStrip]

/-- Witness for C7 at a concrete zero-page file. -/
theorem extract_zero_pages_witness :
    zeroPageFile.present = true ∧ zeroPageFile.size ≠ 0 ∧ zeroPageFile.parse = some [] ∧
    extract_text_and_images zeroPageFile = (some ⟨[], [], []⟩, 0) :=
  ⟨rfl, by decide, rfl, extract_zero_pages zeroPageFile rfl (by decide) rfl⟩

/-- C2: every non-`None` result of `analyze_report` carries a
`final_analysis` entry, and whenever the Pass-2 response recorded in the
trace is falsy (no content or an exception), the returned result is `None`
regardless of Pass 1's outcome — no partial result with only
`initial_extraction` is ever returned. -/
theorem analyze_pass2_required (t : PyStr → Option PyStr)
    (v : PyStr → List PyBytes → Option PyStr) (inp : Option ExtractedDocument)
    (r : AnalysisResult) (r1 r2 : Option PyStr) :
    ((analyze_report t v inp).fst = some r → r.final_analysis.isSome = true) ∧
    ((analyze_report t v inp).snd.map CallEvent.response = [r1, r2] →
      falsy r2 = true → (analyze_report t v inp).fst = none) := by
  cases inp with
  | none =>
    exact ⟨fun h => by simp [analyze_report] at h, fun h => by simp [analyze_report] at h⟩
  | some d =>
    by_cases hpre : (d.full_text.isEmpty && d.images.isEmpty) = true
    · rw [analyze_report_refuse t v d hpre]
      exact ⟨fun h => by simp at h, fun h => by simp at h⟩
    · rw [analyze_report_eq t v d (by simpa using hpre)]
      by_cases hf : falsy (pass2_response t v d) = true
      · rw [if_pos hf]
        exact ⟨fun h => by simp at h, fun _ _ => rfl⟩
      · rw [if_neg hf]
        constructor
        · intro h
          have hr : r = ⟨pass1_record t d, pass2_response t v d⟩ := by
            simpa using h.symm
          rw [hr]
          exact isSome_of_falsy_eq_false (Bool.not_eq_true _ ▸ hf)
        · intro hm hfal
          have h2 : r2 = pass2_response t v d := by
            simp only [List.map_cons, List.map_nil, List.cons.injEq, and_true] at hm
            exact hm.2.symm
          rw [h2] at hfal
          exact absurd hfal hf

/-- Witness for C2: a concrete run where Pass 1 succeeds but Pass 2 fails
returns `None`. -/
theorem analyze_pass2_required_witness :
    (analyze_report stubTextOk stubVisionFail (some sampleDoc)).snd.map CallEvent.response
      = [some (("summary").toList), none] ∧
    falsy (none : Option PyStr) = true ∧
    (analyze_report stubTextOk stubVisionFail (some sampleDoc)).fst = none :=
  ⟨rfl, rfl,
    (analyze_pass2_required stubTextOk stubVisionFail (some sampleDoc)
      ⟨none, none⟩ (some (("summary").toList)) none).2 rfl rfl⟩

/-- C1: if Pass 1 fails (its response is falsy: no content or an
exception) and a result is nonetheless returned (Pass 2 succeeded), the
pipeline did not abort: the result omits `initial_extraction`, and the
Pass-2 prompt is the synthesis template with the placeholder replaced by
the document's original raw full text — not by the fallback marker. -/
theorem analyze_pass1_fallback (t : PyStr → Option PyStr)
    (v : PyStr → List PyBytes → Option PyStr) (d : ExtractedDocument) (r : AnalysisResult)
    (h1 : falsy (t (extraction_prompt d.full_text)) = true)
    (h2 : (analyze_report t v (some d)).fst = some r) :
    r.initial_extraction = none ∧
    ∃ e1 e2, (analyze_report t v (some d)).snd = [e1, e2] ∧
      e2.prompt = replaceAll placeholder_token d.full_text synthesis_prompt := by
  by_cases hpre : (d.full_text.isEmpty && d.images.isEmpty) = true
  · rw [analyze_report_refuse t v d hpre] at h2
    simp at h2
  · have heq := analyze_report_eq t v d (by simpa using hpre)
    rw [heq] at h2 ⊢
    have hfp : final_prompt_of t d = replaceAll placeholder_token d.full_text synthesis_prompt := by
      simp [final_prompt_of, pass2_basis, h1]
    refine ⟨?_, ⟨_, _, rfl, hfp⟩⟩
    by_cases hf : falsy (pass2_response t v d) = true
    · rw [if_pos hf] at h2; simp at h2
    · rw [if_neg hf] at h2
      have hr : r = ⟨pass1_record t d, pass2_response t v d⟩ := by simpa using h2.symm
      rw [hr]
      simp [pass1_record, h1]

/-- Witness for C1: Pass 1 fails, Pass 2 succeeds on a document with one
image; the result omits `initial_extraction`. -/
theorem analyze_pass1_fallback_witness :
    falsy (stubTextFail (extraction_prompt sampleDoc.full_text)) = true ∧
    (analyze_report stubTextFail stubVisionOk (some sampleDoc)).fst
      = some ⟨none, some (("analysis").toList)⟩ ∧
    ((⟨none, some (("analysis").toList)⟩ : AnalysisResult).initial_extraction = none ∧
      ∃ e1 e2, (analyze_report stubTextFail stubVisionOk (some sampleDoc)).snd = [e1, e2] ∧
        e2.prompt = replaceAll placeholder_token sampleDoc.full_text synthesis_prompt) :=
  ⟨rfl, rfl,
    analyze_pass1_fallback stubTextFail stubVisionOk sampleDoc
      ⟨none, some (("analysis").toList)⟩ rfl rfl⟩

/-- C9: `analyze_report` is a deterministic function of the input document
and of the service's responses to the prompts the run issues: two services
that agree on the extraction prompt, the final prompt and the image
payloads produce identical results and traces. -/
theorem analyze_deterministic (t1 t2 : PyStr → Option PyStr)
    (v1 v2 : PyStr → List PyBytes → Option PyStr) (d : ExtractedDocument)
    (hext : t1 (extraction_prompt d.full_text) = t2 (extraction_prompt d.full_text))
    (hfin : t1 (final_prompt_of t1 d) = t2 (final_prompt_of t1 d))
    (hvis : v1 (final_prompt_of t1 d) (image_payloads d)
      = v2 (final_prompt_of t1 d) (image_payloads d)) :
    analyze_report t1 v1 (some d) = analyze_report t2 v2 (some d) := by
  by_cases hpre : (d.full_text.isEmpty && d.images.isEmpty) = true
  · rw [analyze_report_refuse t1 v1 d hpre, analyze_report_refuse t2 v2 d hpre]
  · have hb : pass2_basis t1 d = pass2_basis t2 d := by
      simp only [pass2_basis, hext]
    have hfp : final_prompt_of t1 d = final_prompt_of t2 d := by
      simp only [final_prompt_of, hb]
    have hresp : pass2_response t1 v1 d = pass2_response t2 v2 d := by
      simp only [pass2_response, ← hfp]
      split_ifs with h
      · exact hfin
      · exact hvis
    have hrec : pass1_record t1 d = pass1_record t2 d := by
      simp only [pass1_record, hext]
    rw [analyze_report_eq t1 v1 d (by simpa using hpre),
      analyze_report_eq t2 v2 d (by simpa using hpre), hresp, hrec, hfp, hext]

/-- Witness for C9 with a deterministic stub service. -/
theorem analyze_deterministic_witness :
    stubTextOk (extraction_prompt sampleDoc.full_text)
      = stubTextOk (extraction_prompt sampleDoc.full_text) ∧
    stubTextOk (final_prompt_of stubTextOk sampleDoc)
      = stubTextOk (final_prompt_of stubTextOk sampleDoc) ∧
    stubVisionOk (final_prompt_of stubTextOk sampleDoc) (image_payloads sampleDoc)
      = stubVisionOk (final_prompt_of stubTextOk sampleDoc) (image_payloads sampleDoc) ∧
    analyze_report stubTextOk stubVisionOk (some sampleDoc)
      = analyze_report stubTextOk stubVisionOk (some sampleDoc) :=
  ⟨rfl, rfl, rfl,
    analyze_deterministic stubTextOk stubTextOk stubVisionOk stubVisionOk sampleDoc rfl rfl rfl⟩

/-- C3 counterexample: the claim quantifies over every `ExtractedDocument`
and asserts that with an empty image list "Pass 2 invokes the Completion
Service in text-only mode"; but for the document with empty text and empty
image list the orchestrator refuses up front and performs no service call
at all — the trace is empty, so no Pass-2 invocation (text-only or
otherwise) exists. -/
theorem pass2_mode_cex :
    emptyDoc.images = [] ∧
    (analyze_report stubTextOk stubVisionOk (some emptyDoc)).snd = [] :=
  ⟨rfl, rfl⟩

/-- C3 (amended to documents that pass the nothing-to-analyze
precondition): Pass 2 happens exactly once; with no images it goes through
the text-only entry point with no payloads, and with at least one image it
goes through the multimodal entry point with exactly the document's image
payloads in list order — an order the extractor always produces sorted by
(pageNum, indexOnPage). -/
theorem pass2_mode (t : PyStr → Option PyStr)
    (v : PyStr → List PyBytes → Option PyStr) (d : ExtractedDocument)
    (f : PdfFile) (d' : ExtractedDocument) (w : Nat)
    (hne : ¬ (d.full_text = [] ∧ d.images = [])) :
    (∃ e1 e2, (analyze_report t v (some d)).snd = [e1, e2] ∧
      (d.images = [] → e2.mode = CallMode.text ∧ e2.images = []) ∧
      (d.images ≠ [] → e2.mode = CallMode.vision ∧
        e2.images = d.images.map ImageRec.image_bytes)) ∧
    (extract_text_and_images f = (some d', w) → d'.images.Pairwise imgOrder) := by
  have hpre : (d.full_text.isEmpty && d.images.isEmpty) = false := by
    rw [Bool.and_eq_false_iff]
    rcases not_and_or.mp hne with h | h
    · exact Or.inl (by simpa [List.isEmpty_iff] using h)
    · exact Or.inr (by simpa [List.isEmpty_iff] using h)
  refine ⟨?_, fun h => extract_images_sorted h⟩
  rw [analyze_report_eq t v d hpre]
  refine ⟨_, _, rfl, fun h => ?_, fun h => ?_⟩
  · constructor
    · simp [pass2_mode_of, image_payloads, h]
    · simp [image_payloads, h]
  · constructor
    · simp [pass2_mode_of, image_payloads, List.isEmpty_iff, h]
    · rfl

/-- Witness for the amended C3 at a document with one image and at a file
whose extraction keeps two images. -/
theorem pass2_mode_witness :
    (¬ (sampleDoc.full_text = [] ∧ sampleDoc.images = [])) ∧
    ((∃ e1 e2, (analyze_report stubTextOk stubVisionOk (some sampleDoc)).snd = [e1, e2] ∧
      (sampleDoc.images = [] → e2.mode = CallMode.text ∧ e2.images = []) ∧
      (sampleDoc.images ≠ [] → e2.mode = CallMode.vision ∧
        e2.images = sampleDoc.images.map ImageRec.image_bytes)) ∧
    (extract_text_and_images sampleFile = (some sampleFileDoc, 1) →
      sampleFileDoc.images.Pairwise imgOrder)) :=
  ⟨by decide,
    pass2_mode stubTextOk stubVisionOk sampleDoc sampleFile sampleFileDoc 1 (by decide)⟩

/-- C6: for every document that opens (file present, non-empty, readable),
extraction succeeds no matter how many image references fail to resolve;
the kept image payloads are exactly the successfully-resolved ones in
order, their number is the number of resolvable references, and one
warning is recorded per failing reference. -/
theorem extract_image_failure_nonfatal (f : PdfFile) (pages : List PageData)
    (h1 : f.present = true) (h2 : f.size ≠ 0) (h3 : f.parse = some pages) :
    ∃ d, extract_text_and_images f = (some d, totalBad pages) ∧
      d.images.map ImageRec.image_bytes = (pages.map pageGoodPayloads).flatten ∧
      d.images.length = totalGood pages := by
  refine ⟨⟨pyStrip (processPages 1 pages).1, (processPages 1 pages).2.2.1,
    (processPages 1 pages).2.1⟩, ?_, ?_, ?_⟩
  · rw [extract_text_and_images, if_neg (by simp [h1]), if_neg h2, h3]
    exact congrArg
      (fun w => ((some ⟨pyStrip (processPages 1 pages).1, (processPages 1 pages).2.2.1,
        (processPages 1 pages).2.1⟩ : Option ExtractedDocument), w))
      processPages_warns
  · exact processPages_payloads
  · have := congrArg List.length (@processPages_payloads 1 pages)
    simpa [totalGood, pageGoodPayloads, List.length_flatten] using this

/-- Witness for C6: one of three references fails; extraction succeeds
with two images and one warning. -/
theorem extract_image_failure_nonfatal_witness :
    sampleFile.present = true ∧ sampleFile.size ≠ 0 ∧
    sampleFile.parse = some [⟨("hi").toList, [some [1], none, some [2]]⟩] ∧
    (∃ d, extract_text_and_images sampleFile
        = (some d, totalBad [⟨("hi").toList, [some [1], none, some [2]]⟩]) ∧
      d.images.map ImageRec.image_bytes
        = ([⟨("hi").toList, [some [1], none, some [2]]⟩].map pageGoodPayloads).flatten ∧
      d.images.length = totalGood [⟨("hi").toList, [some [1], none, some [2]]⟩]) :=
  ⟨rfl, by decide, rfl,
    extract_image_failure_nonfatal sampleFile [⟨("hi").toList, [some [1], none, some [2]]⟩]
      rfl (by decide) rfl⟩

/-! ## The page-marker campaign (claim C5)

`natChars` correctness, a characterisation of the marker scanner, its
invariance under whitespace stripping, and the count of markers in the
accumulated full text. -/

/-- Decimal renderings consist of digit characters. -/
theorem natCharsAux_digits : ∀ (fuel n : Nat), ∀ c ∈ natCharsAux fuel n, c.isDigit = true := by
  intro fuel
  induction fuel with
  | zero => intro n c hc; simp [natCharsAux] at hc
  | succ fuel ih =>
    intro n c hc
    rw [natCharsAux] at hc
    split_ifs at hc with h
    · have hc' : c = digitChar n := by simpa using hc
      subst hc'
      interval_cases n <;> decide
    · rcases List.mem_append.mp hc with h' | h'
      · exact ih _ c h'
      · have hc' : c = digitChar (n % 10) := by simpa using h'
        subst hc'
        have : n % 10 < 10 := Nat.mod_lt _ (by omega)
        interval_cases hm : (n % 10) <;> decide

/-- Appending one digit multiplies the value by ten and adds the digit. -/
theorem digitsToNat_append_singleton (l : PyStr) (c : Char) :
    digitsToNat (l ++ [c]) = 10 * digitsToNat l + (c.toNat - 48) := by
  simp [digitsToNat, List.foldl_append]

/-- Decimal rendering round-trips through the scanner's digit parser. -/
theorem digitsToNat_natCharsAux : ∀ (fuel n : Nat), n < fuel →
    digitsToNat (natCharsAux fuel n) = n := by
  intro fuel
  induction fuel with
  | zero => omega
  | succ fuel ih =>
    intro n hn
    rw [natCharsAux]
    split_ifs with h
    · interval_cases n <;> decide
    · have hdiv : n / 10 < n := Nat.div_lt_self (by omega) (by omega)
      rw [digitsToNat_append_singleton, ih (n / 10) (by omega)]
      have hmod : n % 10 < 10 := Nat.mod_lt _ (by omega)
      have : (digitChar (n % 10)).toNat - 48 = n % 10 := by
        interval_cases hm : (n % 10) <;> decide
      omega

/-- The value parsed from `natChars n` is `n` itself. -/
theorem digitsToNat_natChars (n : Nat) : digitsToNat (natChars n) = n :=
  digitsToNat_natCharsAux (n + 1) n (by omega)

/-- `natChars` produces only digit characters. -/
theorem natChars_digits (n : Nat) : ∀ c ∈ natChars n, c.isDigit = true :=
  natCharsAux_digits (n + 1) n

/-- Decimal renderings are never empty. -/
theorem natChars_ne_nil (n : Nat) : natChars n ≠ [] := by
  rw [natChars, natCharsAux]
  split_ifs with h
  · simp
  · exact List.append_ne_nil_of_right_ne_nil _ (by simp)

/-- Digit characters are not dashes. -/
theorem digit_ne_dash {c : Char} (h : c.isDigit = true) : c ≠ '-' := by
  intro hc; subst hc; simp at h

/-- Whitespace characters are not dashes. -/
theorem ws_ne_dash {c : Char} (h : pyIsSpace c = true) : c ≠ '-' := by
  intro hc; subst hc; simp [pyIsSpace] at h

/-- The marker pattern spelled out. -/
theorem pagePat_eq :
    pagePat = '-' :: '-' :: '-' :: ' ' :: 'P' :: 'a' :: 'g' :: 'e' :: ' ' :: [] := rfl

/-- A string that does not start with a dash starts no marker. -/
theorem matchAt_cons_ne (c : Char) (s : PyStr) (h : c ≠ '-') :
    matchAt (c :: s) = none := by
  have hp : pagePat.isPrefixOf (c :: s) = false := by
    rw [pagePat_eq]
    show (('-' == c) && _) = false
    rw [beq_eq_false_iff_ne.mpr (Ne.symm h), Bool.false_and]
  simp [matchAt, hp]

/-- A position where the pattern is not a prefix starts no marker. -/
theorem matchAt_none_of_pat_miss (s : PyStr) (h : pagePat.isPrefixOf s = false) :
    matchAt s = none := by
  simp [matchAt, h]

/-- Characterisation of a successful marker match at the head of a
string. -/
theorem matchAt_eq_some_iff {s : PyStr} {k : Nat} :
    matchAt s = some k ↔
      ∃ ds rest, s = pagePat ++ (ds ++ (markTail ++ rest)) ∧ ds ≠ [] ∧
        (∀ c ∈ ds, c.isDigit = true) ∧ digitsToNat ds = k := by
  constructor
  · intro h
    rw [matchAt] at h
    by_cases h1 : pagePat.isPrefixOf s = true
    · rw [if_pos h1] at h
      by_cases h2 : ((s.drop pagePat.length).takeWhile Char.isDigit).isEmpty = true
      · rw [if_pos h2] at h; exact absurd h (by simp)
      · rw [if_neg h2] at h
        by_cases h3 : markTail.isPrefixOf ((s.drop pagePat.length).dropWhile Char.isDigit) = true
        · rw [if_pos h3] at h
          obtain ⟨tl, htl⟩ := List.isPrefixOf_iff_prefix.mp h1
          have hdrop : s.drop pagePat.length = tl := by rw [← htl, List.drop_left]
          rw [hdrop] at h2 h3 h
          obtain ⟨rest, hrest⟩ := List.isPrefixOf_iff_prefix.mp h3
          refine ⟨tl.takeWhile Char.isDigit, rest, ?_, by simpa using h2,
            fun c hc => List.mem_takeWhile_imp hc, by simpa using h⟩
          rw [← htl, hrest, List.takeWhile_append_dropWhile]
        · rw [if_neg h3] at h; exact absurd h (by simp)
    · rw [if_neg h1] at h; exact absurd h (by simp)
  · rintro ⟨ds, rest, hs, hne, hdig, hval⟩
    have h1 : pagePat.isPrefixOf s = true := by
      rw [hs]; exact List.isPrefixOf_iff_prefix.mpr (List.prefix_append _ _)
    have hdrop : s.drop pagePat.length = ds ++ (markTail ++ rest) := by
      rw [hs, List.drop_left]
    have htake : (ds ++ (markTail ++ rest)).takeWhile Char.isDigit = ds := by
      rw [List.takeWhile_append, if_pos (by rw [List.takeWhile_eq_self_iff.mpr hdig])]
      rw [show markTail ++ rest = ' ' :: (("---").toList ++ rest) from rfl]
      rw [List.takeWhile_cons_of_neg (by decide), List.append_nil]
    have hdropw : (ds ++ (markTail ++ rest)).dropWhile Char.isDigit = markTail ++ rest := by
      rw [List.dropWhile_append]
      rw [if_pos (by simp [List.dropWhile_eq_nil_iff]; exact fun c hc => hdig c hc)]
      rw [show markTail ++ rest = ' ' :: (("---").toList ++ rest) from rfl]
      exact List.dropWhile_cons_of_neg (by decide)
    rw [matchAt, if_pos h1, hdrop, htake, hdropw]
    rw [if_neg (by simpa using hne), if_pos (List.isPrefixOf_iff_prefix.mpr (List.prefix_append _ _))]
    exact congrArg some hval

/-- A page text that does not contain the marker pattern starts no marker,
even when followed by a newline and arbitrary further content: the pattern
contains no newline, so a match cannot straddle the boundary. -/
theorem matchAt_clean (u v : PyStr) (h : ¬ List.IsInfix pagePat u) :
    matchAt (u ++ '\n' :: v) = none := by
  cases hm : matchAt (u ++ '\n' :: v) with
  | none => rfl
  | some k =>
    exfalso
    obtain ⟨ds, rest, heq, hne, hdig, hval⟩ := matchAt_eq_some_iff.mp hm
    have hpre : pagePat <+: u ++ '\n' :: v := ⟨ds ++ (markTail ++ rest), heq.symm⟩
    have htake := List.prefix_iff_eq_take.mp hpre
    by_cases hlen : pagePat.length ≤ u.length
    · rw [List.take_append_eq_append_take, Nat.sub_eq_zero_of_le hlen,
        List.take_zero, List.append_nil] at htake
      exact h ((htake ▸ List.take_prefix pagePat.length u : pagePat <+: u)).isInfix
    · push_neg at hlen
      rw [List.take_append_eq_append_take, List.take_of_length_le (by omega)] at htake
      obtain ⟨m, hm'⟩ := Nat.exists_eq_add_of_le (Nat.one_le_iff_ne_zero.mpr
        (by omega : pagePat.length - u.length ≠ 0))
      have hcons : ('\n' :: v).take (pagePat.length - u.length) = '\n' :: v.take m := by
        rw [hm', Nat.add_comm, List.take_succ_cons]
      rw [hcons] at htake
      have hmem : '\n' ∈ pagePat := by
        rw [htake]; exact List.mem_append_right _ (List.mem_cons_self _ _)
      exact absurd hmem (by decide)

/-- Extending a string by trailing whitespace changes no marker match at
its head: the pattern ends in a dash, which is not whitespace. -/
theorem matchAt_append_ws (u ws : PyStr) (hws : ∀ c ∈ ws, pyIsSpace c = true) :
    matchAt (u ++ ws) = matchAt u := by
  cases hm : matchAt u with
  | some k =>
    obtain ⟨ds, rest, heq, hne, hdig, hval⟩ := matchAt_eq_some_iff.mp hm
    exact matchAt_eq_some_iff.mpr
      ⟨ds, rest ++ ws, by rw [heq]; simp [List.append_assoc], hne, hdig, hval⟩
  | none =>
    cases hm2 : matchAt (u ++ ws) with
    | none => rfl
    | some k =>
      exfalso
      obtain ⟨ds, rest, heq, hne, hdig, hval⟩ := matchAt_eq_some_iff.mp hm2
      have heq' : u ++ ws = (pagePat ++ (ds ++ markTail)) ++ rest := by
        rw [heq]; simp [List.append_assoc]
      have hAne : pagePat ++ (ds ++ markTail) ≠ [] := by
        rw [pagePat_eq]; simp
      by_cases hlen : (pagePat ++ (ds ++ markTail)).length ≤ u.length
      · have hu : u = (pagePat ++ (ds ++ markTail))
            ++ rest.take (u.length - (pagePat ++ (ds ++ markTail)).length) := by
          conv_lhs => rw [← List.take_left u ws, heq']
          rw [List.take_append_eq_append_take, List.take_of_length_le hlen]
        have : matchAt u = some k := matchAt_eq_some_iff.mpr
          ⟨ds, rest.take (u.length - (pagePat ++ (ds ++ markTail)).length),
            by conv_lhs => rw [hu]
               simp [List.append_assoc], hne, hdig, hval⟩
        rw [hm] at this
        exact absurd this (by simp)
      · push_neg at hlen
        have hAtake : pagePat ++ (ds ++ markTail)
            = u ++ ws.take ((pagePat ++ (ds ++ markTail)).length - u.length) := by
          conv_lhs => rw [← List.take_left (pagePat ++ (ds ++ markTail)) rest, ← heq']
          rw [List.take_append_eq_append_take, List.take_of_length_le (by omega)]
        have hmlen : (pagePat ++ (ds ++ markTail)).length - u.length ≤ ws.length := by
          have hl := congrArg List.length heq'
          simp only [List.length_append] at hl ⊢
          omega
        have hwsne : ws.take ((pagePat ++ (ds ++ markTail)).length - u.length) ≠ [] := by
          rw [Ne, List.take_eq_nil_iff]
          push_neg
          refine ⟨Nat.sub_ne_zero_of_lt hlen, ?_⟩
          intro hwnil
          rw [hwnil] at hmlen
          simp at hmlen
          exact (Nat.sub_ne_zero_of_lt hlen) (by simpa [List.length_append] using hmlen)
        have hlast1 : (pagePat ++ (ds ++ markTail)).getLast hAne = '-' := by
          rw [List.getLast_append_of_ne_nil
            (show ds ++ markTail ≠ [] from
              List.append_ne_nil_of_right_ne_nil _ (by decide))]
          rw [List.getLast_append_of_ne_nil (show markTail ≠ [] by decide)]
          decide
        have key : ∀ (l : PyStr) (h : pagePat ++ (ds ++ markTail) = l),
            l.getLast (h ▸ hAne) = '-' := by
          intro l h
          subst h
          exact hlast1
        have hlast1' := key _ hAtake
        rw [List.getLast_append_of_ne_nil hwsne] at hlast1'
        have hdash : ('-' : Char) ∈ ws :=
          hlast1' ▸ List.mem_of_mem_take (List.getLast_mem hwsne)
        have := hws '-' hdash
        simp [pyIsSpace] at this

/-- Skipping one non-dash character during the scan. -/
theorem markerNums_cons_ne (c : Char) (l : PyStr) (h : c ≠ '-') :
    markerNums (c :: l) = markerNums l := by
  simp [markerNums, matchAt_cons_ne c l h]

/-- Skipping one character at which the pattern is not a prefix. -/
theorem markerNums_cons_pat_miss (c : Char) (l : PyStr)
    (h : pagePat.isPrefixOf (c :: l) = false) :
    markerNums (c :: l) = markerNums l := by
  simp [markerNums, matchAt_none_of_pat_miss _ h]

/-- Skipping a dash-free region during the scan. -/
theorem markerNums_append_no_dash (a l : PyStr) (ha : ∀ c ∈ a, c ≠ '-') :
    markerNums (a ++ l) = markerNums l := by
  induction a with
  | nil => rfl
  | cons c a' ih =>
    rw [List.cons_append, markerNums_cons_ne c _ (ha c (List.mem_cons_self _ _))]
    exact ih fun c hc => ha c (List.mem_cons_of_mem _ hc)

/-- A whitespace-only string contains no marker. -/
theorem markerNums_all_ws (ws : PyStr) (h : ∀ c ∈ ws, pyIsSpace c = true) :
    markerNums ws = [] := by
  have := markerNums_append_no_dash ws [] fun c hc => ws_ne_dash (h c hc)
  simpa using this

/-- Trailing whitespace contributes no markers and hides none. -/
theorem markerNums_append_ws (u ws : PyStr) (hws : ∀ c ∈ ws, pyIsSpace c = true) :
    markerNums (u ++ ws) = markerNums u := by
  induction u with
  | nil => simpa using markerNums_all_ws ws hws
  | cons c u' ih =>
    rw [List.cons_append]
    have hm := matchAt_append_ws (c :: u') ws hws
    rw [show (c :: u') ++ ws = c :: (u' ++ ws) from rfl] at hm
    simp only [markerNums]
    rw [hm]
    cases matchAt (c :: u') <;> simp [ih]

/-- Leading whitespace contributes no markers and hides none. -/
theorem markerNums_dropWhile_ws (l : PyStr) :
    markerNums (l.dropWhile pyIsSpace) = markerNums l := by
  induction l with
  | nil => rfl
  | cons c l' ih =>
    by_cases hc : pyIsSpace c = true
    · rw [List.dropWhile_cons_of_pos hc, ih, markerNums_cons_ne c l' (ws_ne_dash hc)]
    · rw [List.dropWhile_cons_of_neg hc]

/-- A list splits into its right-stripped part and the stripped suffix. -/
theorem rdropWhile_append_rtakeWhile (p : Char → Bool) (l : PyStr) :
    l.rdropWhile p ++ l.rtakeWhile p = l := by
  rw [List.rdropWhile, List.rtakeWhile, ← List.reverse_append,
    List.takeWhile_append_dropWhile, List.reverse_reverse]

/-- Python's `strip` changes no marker occurrences. -/
theorem markerNums_pyStrip (l : PyStr) :
    markerNums (pyStrip l) = markerNums l := by
  rw [pyStrip]
  have h1 : markerNums ((l.dropWhile pyIsSpace).rdropWhile pyIsSpace
        ++ (l.dropWhile pyIsSpace).rtakeWhile pyIsSpace)
      = markerNums ((l.dropWhile pyIsSpace).rdropWhile pyIsSpace) :=
    markerNums_append_ws _ _ fun c hc => List.mem_rtakeWhile_imp hc
  rw [rdropWhile_append_rtakeWhile] at h1
  exact h1.symm.trans (markerNums_dropWhile_ws l)

/-- Python's `strip` is idempotent. -/
theorem pyStrip_idem (l : PyStr) : pyStrip (pyStrip l) = pyStrip l := by
  rw [pyStrip, pyStrip]
  have hd : (List.rdropWhile pyIsSpace (l.dropWhile pyIsSpace)).dropWhile pyIsSpace
      = List.rdropWhile pyIsSpace (l.dropWhile pyIsSpace) := by
    cases hz : List.rdropWhile pyIsSpace (l.dropWhile pyIsSpace) with
    | nil => rfl
    | cons a z' =>
      have hpref : a :: z' <+: l.dropWhile pyIsSpace := hz ▸ List.rdropWhile_prefix _ _
      obtain ⟨t, ht⟩ := hpref
      have hne : l.dropWhile pyIsSpace ≠ [] := by rw [← ht]; simp
      have hh : (l.dropWhile pyIsSpace).head? = some a := by rw [← ht]; rfl
      have hnws := List.head_dropWhile_not pyIsSpace l hne
      have hha := List.head?_eq_head hne
      rw [hh] at hha
      have ha : (l.dropWhile pyIsSpace).head hne = a := (Option.some.inj hha).symm
      rw [ha] at hnws
      exact List.dropWhile_cons_of_neg (by simp [hnws])
  rw [hd, List.rdropWhile_idempotent]

/-- Recording one match during the scan. -/
theorem markerNums_cons_some {c : Char} {l : PyStr} {k : Nat}
    (h : matchAt (c :: l) = some k) :
    markerNums (c :: l) = k :: markerNums l := by
  simp only [markerNums]
  rw [h]

/-- Scanning a full marker segment yields exactly its page number, then
continues after it. -/
theorem markerNums_marker_segment (k : Nat) (w : PyStr) :
    markerNums (pagePat ++ (natChars k ++ (markTail ++ ('\n' :: w))))
      = k :: markerNums ('\n' :: w) := by
  have hm : matchAt (pagePat ++ (natChars k ++ (markTail ++ ('\n' :: w)))) = some k :=
    matchAt_eq_some_iff.mpr ⟨natChars k, '\n' :: w, rfl, natChars_ne_nil k,
      natChars_digits k, digitsToNat_natChars k⟩
  rw [show pagePat ++ (natChars k ++ (markTail ++ ('\n' :: w)))
      = '-' :: ('-' :: '-' :: ' ' :: 'P' :: 'a' :: 'g' :: 'e' :: ' '
        :: (natChars k ++ (markTail ++ ('\n' :: w)))) from rfl] at hm ⊢
  rw [markerNums_cons_some hm]
  congr 1
  rw [markerNums_cons_pat_miss _ _ (by rfl)]
  rw [markerNums_cons_pat_miss _ _ (by rfl)]
  rw [markerNums_cons_ne ' ' _ (by decide)]
  rw [markerNums_cons_ne 'P' _ (by decide)]
  rw [markerNums_cons_ne 'a' _ (by decide)]
  rw [markerNums_cons_ne 'g' _ (by decide)]
  rw [markerNums_cons_ne 'e' _ (by decide)]
  rw [markerNums_cons_ne ' ' _ (by decide)]
  rw [markerNums_append_no_dash (natChars k) _
    (fun c hc => digit_ne_dash (natChars_digits k c hc))]
  rw [show markTail ++ ('\n' :: w) = ' ' :: '-' :: '-' :: '-' :: '\n' :: w from rfl]
  rw [markerNums_cons_ne ' ' _ (by decide)]
  rw [markerNums_cons_pat_miss _ _ (by rfl)]
  rw [markerNums_cons_pat_miss _ _ (by rfl)]
  rw [markerNums_cons_pat_miss _ _ (by rfl)]

/-- Scanning past a marker-free page text followed by a newline finds
nothing inside the page text. -/
theorem markerNums_clean_append (tx v : PyStr) (h : ¬ List.IsInfix pagePat tx) :
    markerNums (tx ++ '\n' :: v) = markerNums ('\n' :: v) := by
  induction tx with
  | nil => rfl
  | cons c tx' ih =>
    have hm : matchAt ((c :: tx') ++ '\n' :: v) = none := matchAt_clean _ _ h
    rw [show (c :: tx') ++ '\n' :: v = c :: (tx' ++ '\n' :: v) from rfl] at hm ⊢
    simp only [markerNums]
    rw [hm]
    exact ih fun hinf => h (List.infix_cons hinf)

/-- The accumulated full text of marker-free pages contains exactly one
marker per page, in increasing page order. -/
theorem markerNums_processPages (ps : List PageData) : ∀ n : Nat,
    (∀ p ∈ ps, ¬ List.IsInfix pagePat p.text) →
    markerNums ((processPages n ps).1) = List.range' n ps.length := by
  induction ps with
  | nil => intro n _; rfl
  | cons p ps' ih =>
    intro n hclean
    have hstep : (processPages n (p :: ps')).1
        = '\n' :: (pagePat ++ (natChars n ++ (markTail
          ++ ('\n' :: (p.text ++ '\n' :: (processPages (n + 1) ps').1))))) := by
      show pageMarker n ++ p.text ++ ['\n'] ++ (processPages (n + 1) ps').1 = _
      rw [pageMarker]
      rw [show ("--- Page ").toList = pagePat from rfl,
        show (" ---\n").toList = markTail ++ ['\n'] from rfl]
      simp only [List.cons_append, List.append_assoc, List.singleton_append,
        List.nil_append]
    rw [hstep]
    rw [markerNums_cons_ne '\n' _ (by decide)]
    rw [markerNums_marker_segment]
    rw [markerNums_cons_ne '\n' _ (by decide)]
    rw [markerNums_clean_append _ _ (hclean p (List.mem_cons_self _ _))]
    rw [markerNums_cons_ne '\n' _ (by decide)]
    rw [ih (n + 1) fun q hq => hclean q (List.mem_cons_of_mem _ hq)]
    rw [List.length_cons, List.range'_succ]

/-- The per-page text list is the pages' texts in order. -/
theorem processPages_pages_text {n : Nat} {ps : List PageData} :
    (processPages n ps).2.1 = ps.map PageData.text := by
  induction ps generalizing n with
  | nil => rfl
  | cons p ps' ih =>
    simp only [processPages, List.map_cons]
    rw [ih]

/-- C5 counterexample: the claim as stated fails for a one-page document
whose page text itself contains the marker line `--- Page 1 ---`: the
extraction succeeds, `pagesText` has length 1, but the returned `fullText`
contains two marker occurrences (`[1, 1]`), not exactly one in increasing
order (`List.range' 1 1 = [1]`). -/
theorem extract_page_markers_cex :
    markerPageFile.parse = some [⟨("--- Page 1 ---").toList, []⟩] ∧
    (extract_text_and_images markerPageFile).1
      = some ⟨("--- Page 1 ---\n--- Page 1 ---").toList, [],
          [("--- Page 1 ---").toList]⟩ ∧
    markerNums (("--- Page 1 ---\n--- Page 1 ---").toList) = [1, 1] ∧
    [1, 1] ≠ List.range' 1 1 :=
  ⟨rfl, by decide, by decide, by decide⟩

/-- C5 (amended with the proviso that no page's text itself contains the
marker pattern `--- Page `): a document with N pages that extracts
successfully yields `pagesText` of length N, a `fullText` whose marker
occurrences are exactly `1, 2, …, N` in that order, and a `fullText` that
is trimmed of leading and trailing whitespace. -/
theorem extract_page_markers (f : PdfFile) (pages : List PageData)
    (d : ExtractedDocument) (w : Nat)
    (h3 : f.parse = some pages)
    (hx : extract_text_and_images f = (some d, w))
    (hclean : ∀ p ∈ pages, ¬ List.IsInfix pagePat p.text) :
    d.pages_text.length = pages.length ∧
    markerNums d.full_text = List.range' 1 pages.length ∧
    pyStrip d.full_text = d.full_text := by
  unfold extract_text_and_images at hx
  split_ifs at hx with h1 h2
  · exact absurd hx (by simp)
  · exact absurd hx (by simp)
  · rw [h3] at hx
    have hx' : ((some ⟨pyStrip (processPages 1 pages).1, (processPages 1 pages).2.2.1,
        (processPages 1 pages).2.1⟩ : Option ExtractedDocument),
        (processPages 1 pages).2.2.2) = (some d, w) := hx
    rw [Prod.mk.injEq, Option.some.injEq] at hx'
    obtain ⟨hd, hw⟩ := hx'
    subst hd
    refine ⟨?_, ?_, pyStrip_idem _⟩
    · show (processPages 1 pages).2.1.length = pages.length
      rw [processPages_pages_text, List.length_map]
    · show markerNums (pyStrip (processPages 1 pages).1) = List.range' 1 pages.length
      rw [markerNums_pyStrip, markerNums_processPages pages 1 hclean]

/-- Witness for the amended C5 at a concrete two-page file with clean page
texts. -/
theorem extract_page_markers_witness :
    cleanFile.parse = some [⟨("hi").toList, []⟩, ⟨("yo").toList, []⟩] ∧
    extract_text_and_images cleanFile = (some cleanFileDoc, 0) ∧
    (∀ p ∈ [(⟨("hi").toList, []⟩ : PageData), ⟨("yo").toList, []⟩],
      ¬ List.IsInfix pagePat p.text) ∧
    (cleanFileDoc.pages_text.length = 2 ∧
      markerNums cleanFileDoc.full_text = List.range' 1 2 ∧
      pyStrip cleanFileDoc.full_text = cleanFileDoc.full_text) :=
  ⟨rfl, by decide, by decide,
    extract_page_markers cleanFile [⟨("hi").toList, []⟩, ⟨("yo").toList, []⟩]
      cleanFileDoc 0 rfl (by decide) (by decide)⟩

end MedReport
